import Mathlib

/-!
Shallow embedding of the `ziyifast/log` Go package (file `log.go`) and proofs
about it.  Go strings are modelled as lists of characters, the package-level
mutable variables (`Logger`, `Sugar`, `once`) as an explicit `GlobalState`
threaded through the operations, and a Go panic as the `error` branch of an
`Except`.  Third-party library calls (zap, lumberjack, file-rotatelogs) are
modelled by the configuration values the package hands to them; the fallible
`rotatelogs.New` constructor is modelled by an oracle parameter that says, for
a given rotation configuration, whether construction fails.
-/

namespace GoLog

/-- A Go string, modelled as its list of characters. -/
abbrev GoStr := List Char

/-- Coerce a Lean string literal to the Go-string model. -/
def gostr (s : String) : GoStr := s.data

/-- Model of Go `strings.ToUpper`, restricted to the ASCII simple case
mapping (the seven level names compared against are all ASCII). -/
def stringsToUpper (s : GoStr) : GoStr := s.map Char.toUpper

/-- zapcore log levels (`zapcore.Level`). -/
inductive Level where
  | DebugLevel
  | InfoLevel
  | WarnLevel
  | ErrorLevel
  | DPanicLevel
  | PanicLevel
  | FatalLevel
deriving DecidableEq, Repr

/-- The warning line `logLv` prints to standard output for an unrecognized
level string (`fmt.Printf("invalid log level %s, change to INFO\n", logLevel)`). -/
def invalidLevelMsg (logLevel : GoStr) : GoStr :=
  gostr "invalid log level " ++ logLevel ++ gostr ", change to INFO"

/-- Embedding of `logLv` from `log.go`: switch on `strings.ToUpper(logLevel)`;
the second component is the list of lines printed to standard output. -/
def logLv (logLevel : GoStr) : Level × List GoStr :=
  let u := stringsToUpper logLevel
  if u = gostr "DEBUG" then (Level.DebugLevel, [])
  else if u = gostr "INFO" ∨ u = gostr "" then (Level.InfoLevel, [])
  else if u = gostr "WARN" then (Level.WarnLevel, [])
  else if u = gostr "ERROR" then (Level.ErrorLevel, [])
  else if u = gostr "DPANIC" then (Level.DPanicLevel, [])
  else if u = gostr "PANIC" then (Level.PanicLevel, [])
  else if u = gostr "FATAL" then (Level.FatalLevel, [])
  else (Level.InfoLevel, [invalidLevelMsg logLevel])

/-- The seven upper-case names recognized by `logLv`. -/
def levelNames : List GoStr :=
  [gostr "DEBUG", gostr "INFO", gostr "WARN", gostr "ERROR",
   gostr "DPANIC", gostr "PANIC", gostr "FATAL"]

/-- Constant `dateRollingSuffix = ".%Y%m%d"`. -/
def dateRollingSuffix : GoStr := gostr ".%Y%m%d"

/-- Constant `RollingBySize = 0`. -/
def RollingBySize : Int := 0

/-- Constant `RollingByDate = 1`. -/
def RollingByDate : Int := 1

/-- Helper for `filepath.Ext`: walk the reversed path from the last character
toward the front, stopping at a path separator; `acc` holds the characters
already passed, in original order.  Returns the extension (final dot included)
or the empty list. -/
def extFromRev : List Char → List Char → List Char
  | _, [] => []
  | acc, c :: cs =>
    if c = '/' then []
    else if c = '.' then c :: acc
    else extFromRev (c :: acc) cs

/-- Model of Go `filepath.Ext` (Unix path separator): the suffix beginning at
the final dot in the final slash-separated element, empty if there is no dot. -/
def filepathExt (p : GoStr) : GoStr := extFromRev [] p.reverse

/-- Model of Go `strings.HasSuffix`. -/
def hasSuffix (s suffix : GoStr) : Bool := suffix.isSuffixOf s

/-- Model of Go `strings.TrimSuffix`: drop `suffix` from the end of `s` when
present, otherwise return `s` unchanged. -/
def trimSuffix (s suffix : GoStr) : GoStr :=
  if hasSuffix s suffix then s.take (s.length - suffix.length) else s

/-- Go `uint(i)` for a 64-bit `int i`: reduction modulo 2^64. -/
def intToUint (i : Int) : Nat := (i % (2 ^ 64)).toNat

/-- Go `int(u)` for a 64-bit `uint u`: two's-complement reinterpretation. -/
def uintToInt (n : Nat) : Int :=
  if n < 2 ^ 63 then (n : Int) else (n : Int) - 2 ^ 64

/-- The retention option `RotateLogs` appends: either
`rotatelogs.WithMaxAge(time.Hour*24*maxAge)` (recorded here by its day count)
or `rotatelogs.WithRotationCount(maxBackups)`. -/
inductive RetentionOption where
  | WithMaxAge (days : Int)
  | WithRotationCount (count : Nat)
deriving DecidableEq, Repr

/-- Whether the retention option is age-based. -/
def RetentionOption.byAge : RetentionOption → Bool
  | .WithMaxAge _ => true
  | .WithRotationCount _ => false

/-- Whether the retention option is count-based. -/
def RetentionOption.byCount : RetentionOption → Bool
  | .WithMaxAge _ => false
  | .WithRotationCount _ => true

/-- The configuration `RotateLogs` hands to `rotatelogs.New`: the rotated-file
pattern, the `WithLinkName` target, the `WithRotationTime` period (in hours)
and the retention option. -/
structure RotateConfig where
  pattern : GoStr
  linkName : GoStr
  rotationTimeHours : Int
  retention : RetentionOption
deriving DecidableEq, Repr

/-- The pure part of `RotateLogs` from `log.go`: compute the dated pattern from
`filePath` via `filepath.Ext`/`strings.TrimSuffix`, and select the retention
option by comparing `int(maxBackups)` with `maxAge`. -/
def rotateLogsConfig (filePath : GoStr) (maxBackups : Nat) (maxAge : Int) : RotateConfig :=
  let ext := filepathExt filePath
  let filename :=
    if ext.length > 0 then trimSuffix filePath ext ++ dateRollingSuffix ++ ext
    else filePath ++ dateRollingSuffix
  let retention :=
    if uintToInt maxBackups > maxAge then RetentionOption.WithMaxAge maxAge
    else RetentionOption.WithRotationCount maxBackups
  ⟨filename, filePath, 24, retention⟩

/-- A Go `error` value, identified by its message. -/
structure GoError where
  msg : GoStr
deriving DecidableEq, Repr

/-- Embedding of `RotateLogs` from `log.go`.  `libErr` is the oracle modelling
whether the third-party `rotatelogs.New` constructor fails on a given
configuration. -/
def RotateLogs (libErr : RotateConfig → Option GoError)
    (filePath : GoStr) (maxBackups : Nat) (maxAge : Int) :
    Except GoError RotateConfig :=
  let cfg := rotateLogsConfig filePath maxBackups maxAge
  match libErr cfg with
  | some e => .error e
  | none => .ok cfg

/-- Time encodings that appear in the package: `timeEncoder` formats with
`time.RFC3339`. -/
inductive TimeEncoding where
  | rfc3339
deriving DecidableEq, Repr

/-- Level encodings that appear in the package: `zapcore.CapitalLevelEncoder`. -/
inductive LevelEncoding where
  | capital
deriving DecidableEq, Repr

/-- Which zap preset the encoder configuration started from. -/
inductive EncoderBase where
  | production
  | development
deriving DecidableEq, Repr

/-- An encoder configuration: a zap preset with `EncodeTime` and `EncodeLevel`
overridden, wrapped in `zapcore.NewConsoleEncoder`. -/
structure EncoderConfig where
  base : EncoderBase
  timeEnc : TimeEncoding
  levelEnc : LevelEncoding
deriving DecidableEq, Repr

/-- The lumberjack writer configuration built by `SizeRolling`. -/
structure LumberjackConfig where
  Filename : GoStr
  MaxSize : Int
  LocalTime : Bool
  MaxBackups : Int
  MaxAge : Int
  Compress : Bool
deriving DecidableEq, Repr

/-- The write syncers that appear in the package: a file-rotatelogs writer, a
lumberjack writer, or standard output. -/
inductive WriteSyncer where
  | fileRotate (cfg : RotateConfig)
  | lumberjack (cfg : LumberjackConfig)
  | stdoutSync
deriving DecidableEq, Repr

/-- A `zapcore.Core`: encoder, write syncer and minimum level. -/
structure Core where
  encoder : EncoderConfig
  ws : WriteSyncer
  level : Level
deriving DecidableEq, Repr

/-- A `zap.Logger` as the package builds one: a tee of cores plus the
`zap.AddCaller()` and `zap.AddCallerSkip(1)` options. -/
structure ZapLogger where
  cores : List Core
  addCaller : Bool
  callerSkip : Int
deriving DecidableEq, Repr

/-- A `zap.SugaredLogger`, obtained from `Logger.Sugar()`. -/
structure SugaredLogger where
  base : ZapLogger
deriving DecidableEq, Repr

/-- Embedding of `logCore`: append a file core built from the production
encoder config with `timeEncoder` and `CapitalLevelEncoder`. -/
def logCore (fileWriterSyncer : WriteSyncer) (level : Level) (cores : List Core) :
    List Core :=
  cores ++ [⟨⟨.production, .rfc3339, .capital⟩, fileWriterSyncer, level⟩]

/-- Embedding of `devCore`: when the variadic `stdout` flag is present and
true, append a console core built from the development encoder config. -/
def devCore (stdout : List Bool) (level : Level) (cores : List Core) : List Core :=
  if 0 < stdout.length ∧ stdout.headD false = true then
    cores ++ [⟨⟨.development, .rfc3339, .capital⟩, .stdoutSync, level⟩]
  else cores

/-- The package-level mutable state: `var Logger *zap.Logger`,
`var Sugar *zap.SugaredLogger`, and whether `once sync.Once` has fired. -/
structure GlobalState where
  Logger : Option ZapLogger
  Sugar : Option SugaredLogger
  onceDone : Bool
deriving DecidableEq, Repr

/-- The zero-value state at process start: both loggers nil, `once` unused. -/
def initialState : GlobalState := ⟨none, none, false⟩

/-- Embedding of `DateRolling` from `log.go`.  A Go panic (on `RotateLogs`
failure) is the `error` branch: the function never returns normally there and
reports no error value to its caller. -/
def DateRolling (libErr : RotateConfig → Option GoError)
    (filename logLevel : GoStr) (maxBackups maxAge : Int) (stdout : List Bool)
    (st : GlobalState) : Except GoError GlobalState :=
  match RotateLogs libErr filename (intToUint maxBackups) maxAge with
  | .error e => .error e
  | .ok rotateLogs =>
    let level := (logLv logLevel).1
    let cores := logCore (.fileRotate rotateLogs) level []
    let cores := devCore stdout level cores
    let logger : ZapLogger := ⟨cores, true, 1⟩
    .ok ⟨some logger, some ⟨logger⟩, st.onceDone⟩

/-- Embedding of `SizeRolling` from `log.go`: lumberjack writer with the given
size/backup/age limits, local time and compression. -/
def SizeRolling (filename logLevel : GoStr) (maxSize maxBackups maxAge : Int)
    (stdout : List Bool) (st : GlobalState) : GlobalState :=
  let level := (logLv logLevel).1
  let fileWriterSyncer : WriteSyncer :=
    .lumberjack ⟨filename, maxSize, true, maxBackups, maxAge, true⟩
  let cores := logCore fileWriterSyncer level []
  let cores := devCore stdout level cores
  let logger : ZapLogger := ⟨cores, true, 1⟩
  ⟨some logger, some ⟨logger⟩, st.onceDone⟩

/-- Embedding of `Init` from `log.go`: dispatch on `rollingBy`; a value that is
neither `RollingBySize` nor `RollingByDate` matches no switch case and the
function returns with the state untouched. -/
def Init (libErr : RotateConfig → Option GoError) (filename logLevel : GoStr)
    (maxSize maxBackups maxAge : Int) (rollingBy : Int) (stdout : List Bool)
    (st : GlobalState) : Except GoError GlobalState :=
  if rollingBy = RollingBySize then
    .ok (SizeRolling filename logLevel maxSize maxBackups maxAge stdout st)
  else if rollingBy = RollingByDate then
    DateRolling libErr filename logLevel maxBackups maxAge stdout st
  else .ok st

/-- The console-only logger `Default` builds: development encoder config,
standard-output sink, level `DEBUG` when the `DEBUG` environment variable is
non-empty and `INFO` otherwise. -/
def defaultLogger (debugEnv : GoStr) : ZapLogger :=
  let logLevel := if 0 < debugEnv.length then Level.DebugLevel else Level.InfoLevel
  ⟨[⟨⟨.development, .rfc3339, .capital⟩, .stdoutSync, logLevel⟩], true, 1⟩

/-- Embedding of `Default` from `log.go`: `once.Do` runs the body only if the
guard has never fired; `debugEnv` is the value of `os.Getenv("DEBUG")` (empty
when the variable is unset). -/
def Default (debugEnv : GoStr) (st : GlobalState) : GlobalState :=
  if st.onceDone then st
  else ⟨some (defaultLogger debugEnv), some ⟨defaultLogger debugEnv⟩, true⟩

/-- One record handed to the sugared logger by an entry-point function:
the level, the logger it went through, whether the templated (`...f`) variant
was used, and whether the call exits the process afterwards (`Fatal*`). -/
structure Emission where
  level : Level
  through : SugaredLogger
  formatted : Bool
  exits : Bool
deriving DecidableEq, Repr

/-- Embedding of `Info`: ensure a logger exists (lazily calling `Default` when
`Sugar` is nil), then call `Sugar.Info`.  A `none` emission models the nil
dereference that would occur if `Sugar` were still nil. -/
def Info (debugEnv : GoStr) (st : GlobalState) : GlobalState × Option Emission :=
  let st1 := if st.Sugar = none then Default debugEnv st else st
  (st1, st1.Sugar.map fun s => ⟨Level.InfoLevel, s, false, false⟩)

/-- Embedding of `Infof`. -/
def Infof (debugEnv : GoStr) (st : GlobalState) : GlobalState × Option Emission :=
  let st1 := if st.Sugar = none then Default debugEnv st else st
  (st1, st1.Sugar.map fun s => ⟨Level.InfoLevel, s, true, false⟩)

/-- Embedding of `Debug`. -/
def Debug (debugEnv : GoStr) (st : GlobalState) : GlobalState × Option Emission :=
  let st1 := if st.Sugar = none then Default debugEnv st else st
  (st1, st1.Sugar.map fun s => ⟨Level.DebugLevel, s, false, false⟩)

/-- Embedding of `Debugf`. -/
def Debugf (debugEnv : GoStr) (st : GlobalState) : GlobalState × Option Emission :=
  let st1 := if st.Sugar = none then Default debugEnv st else st
  (st1, st1.Sugar.map fun s => ⟨Level.DebugLevel, s, true, false⟩)

/-- Embedding of `Warn`. -/
def Warn (debugEnv : GoStr) (st : GlobalState) : GlobalState × Option Emission :=
  let st1 := if st.Sugar = none then Default debugEnv st else st
  (st1, st1.Sugar.map fun s => ⟨Level.WarnLevel, s, false, false⟩)

/-- Embedding of `Warnf`. -/
def Warnf (debugEnv : GoStr) (st : GlobalState) : GlobalState × Option Emission :=
  let st1 := if st.Sugar = none then Default debugEnv st else st
  (st1, st1.Sugar.map fun s => ⟨Level.WarnLevel, s, true, false⟩)

/-- Embedding of `Error`. -/
def Error (debugEnv : GoStr) (st : GlobalState) : GlobalState × Option Emission :=
  let st1 := if st.Sugar = none then Default debugEnv st else st
  (st1, st1.Sugar.map fun s => ⟨Level.ErrorLevel, s, false, false⟩)

/-- Embedding of `Errorf`. -/
def Errorf (debugEnv : GoStr) (st : GlobalState) : GlobalState × Option Emission :=
  let st1 := if st.Sugar = none then Default debugEnv st else st
  (st1, st1.Sugar.map fun s => ⟨Level.ErrorLevel, s, true, false⟩)

/-- Embedding of `Fatal`: emits at fatal level, then the process exits. -/
def Fatal (debugEnv : GoStr) (st : GlobalState) : GlobalState × Option Emission :=
  let st1 := if st.Sugar = none then Default debugEnv st else st
  (st1, st1.Sugar.map fun s => ⟨Level.FatalLevel, s, false, true⟩)

/-- Embedding of `Fatalf`. -/
def Fatalf (debugEnv : GoStr) (st : GlobalState) : GlobalState × Option Emission :=
  let st1 := if st.Sugar = none then Default debugEnv st else st
  (st1, st1.Sugar.map fun s => ⟨Level.FatalLevel, s, true, true⟩)

/-- One step of the package API acting on the global state: any public
operation that returns (a `DateRolling`-based call that panics has no
successor state). -/
inductive Step : GlobalState → GlobalState → Prop where
  | initOp {libErr f lv ms mb ma rb out st st'}
      (h : Init libErr f lv ms mb ma rb out st = .ok st') : Step st st'
  | dateOp {libErr f lv mb ma out st st'}
      (h : DateRolling libErr f lv mb ma out st = .ok st') : Step st st'
  | sizeOp {f lv ms mb ma out st} : Step st (SizeRolling f lv ms mb ma out st)
  | defaultOp {env st} : Step st (Default env st)
  | infoOp {env st} : Step st (Info env st).1
  | infofOp {env st} : Step st (Infof env st).1
  | debugOp {env st} : Step st (Debug env st).1
  | debugfOp {env st} : Step st (Debugf env st).1
  | warnOp {env st} : Step st (Warn env st).1
  | warnfOp {env st} : Step st (Warnf env st).1
  | errorOp {env st} : Step st (Error env st).1
  | errorfOp {env st} : Step st (Errorf env st).1
  | fatalOp {env st} : Step st (Fatal env st).1
  | fatalfOp {env st} : Step st (Fatalf env st).1

/-- States reachable from the zero-value state through the package API. -/
def Reachable (st : GlobalState) : Prop :=
  Relation.ReflTransGen Step initialState st

/-! Theorems. -/

/-- The level returned by `logLv` depends only on the upper-cased input. -/
theorem logLv_fst_congr (s t : GoStr) (h : stringsToUpper s = stringsToUpper t) :
    (logLv s).1 = (logLv t).1 := by
  unfold logLv
  rw [h]
  dsimp only
  split_ifs <;> rfl

/-- C2: Level-string parsing (logLv) is total and case-insensitive: for every
input string it returns exactly one of the seven levels DEBUG, INFO, WARN,
ERROR, DPANIC, PANIC, FATAL; any string whose upper-casing is not one of those
seven names, as well as the empty string, maps to INFO, and for unrecognized
strings a warning is printed to standard output. -/
theorem c2_logLv_total_case_insensitive (s : GoStr) :
    (logLv s).1 ∈ [Level.DebugLevel, Level.InfoLevel, Level.WarnLevel,
      Level.ErrorLevel, Level.DPanicLevel, Level.PanicLevel, Level.FatalLevel] ∧
    (∀ t, stringsToUpper t = stringsToUpper s → (logLv t).1 = (logLv s).1) ∧
    (stringsToUpper s ∉ levelNames → (logLv s).1 = Level.InfoLevel) ∧
    logLv (gostr "") = (Level.InfoLevel, []) ∧
    (stringsToUpper s ∉ levelNames → s ≠ gostr "" →
      (logLv s).2 = [invalidLevelMsg s]) := by
  refine ⟨?_, fun t ht => logLv_fst_congr t s ht, ?_, by decide, ?_⟩
  · unfold logLv
    dsimp only
    split_ifs <;> simp
  · intro hn
    unfold logLv
    dsimp only
    split_ifs with h1 h2 h3 h4 h5 h6 h7 <;>
      simp_all [levelNames]
  · intro hn hne
    have hu : stringsToUpper s ≠ gostr "" := by
      simpa [stringsToUpper, gostr] using hne
    unfold logLv
    dsimp only
    split_ifs with h1 h2 h3 h4 h5 h6 h7 <;>
      simp_all [levelNames]

/-- Witness for C2 at concrete unrecognized and recognized inputs. -/
theorem c2_witness :
    (logLv (gostr "bogus")).1 = Level.InfoLevel ∧
    (logLv (gostr "bogus")).2 = [invalidLevelMsg (gostr "bogus")] ∧
    (logLv (gostr "FaTaL")).1 = (logLv (gostr "fatal")).1 := by
  refine ⟨(c2_logLv_total_case_insensitive (gostr "bogus")).2.2.1 (by decide),
    (c2_logLv_total_case_insensitive (gostr "bogus")).2.2.2.2 (by decide) (by decide),
    (c2_logLv_total_case_insensitive (gostr "fatal")).2.1 (gostr "FaTaL") (by decide)⟩

/-- C6: Default() selects the level of the console-only default logger from
the debug environment variable: unset (empty) gives an INFO-level logger, any
non-empty value gives a DEBUG-level logger. -/
theorem c6_default_level_from_env (env : GoStr) (st : GlobalState)
    (h : st.onceDone = false) :
    (Default env st).Logger = some (defaultLogger env) ∧
    (Default env st).Sugar = some ⟨defaultLogger env⟩ ∧
    (env = gostr "" → (defaultLogger env).cores.map Core.level = [Level.InfoLevel]) ∧
    (env ≠ gostr "" → (defaultLogger env).cores.map Core.level = [Level.DebugLevel]) ∧
    (defaultLogger env).cores.map Core.ws = [WriteSyncer.stdoutSync] := by
  refine ⟨by simp [Default, h], by simp [Default, h], ?_, ?_, by simp [defaultLogger]⟩
  · intro he
    subst he
    simp [defaultLogger, gostr]
  · intro he
    have hl : 0 < env.length := by
      cases env with
      | nil => exact absurd rfl he
      | cons c cs => simp
    simp [defaultLogger, hl]

/-- Witness for C6: the debug variable set to a non-empty string yields a
DEBUG-level console logger; unset yields INFO. -/
theorem c6_witness :
    (Default (gostr "true") initialState).Sugar = some ⟨defaultLogger (gostr "true")⟩ ∧
    (defaultLogger (gostr "true")).cores.map Core.level = [Level.DebugLevel] ∧
    (defaultLogger (gostr "")).cores.map Core.level = [Level.InfoLevel] := by
  refine ⟨(c6_default_level_from_env (gostr "true") initialState rfl).2.1,
    (c6_default_level_from_env (gostr "true") initialState rfl).2.2.2.1 (by decide),
    (c6_default_level_from_env (gostr "") initialState rfl).2.2.1 rfl⟩

/-- C7: Default() is an idempotent, exactly-once initializer: a second call
leaves the global state (Logger and Sugar included) exactly as the first call
left it, whatever environment value the second call observes. -/
theorem c7_default_idempotent (env env' : GoStr) (st : GlobalState) :
    Default env' (Default env st) = Default env st := by
  unfold Default
  by_cases h : st.onceDone <;> simp [h]

/-- C9: with rotation mode BY_DATE, Init ignores the size parameter: two calls
differing only in maxSizeMB produce identical results. -/
theorem c9_bydate_ignores_maxsize (libErr : RotateConfig → Option GoError)
    (f lv : GoStr) (ms1 ms2 mb ma : Int) (out : List Bool) (st : GlobalState) :
    Init libErr f lv ms1 mb ma RollingByDate out st =
    Init libErr f lv ms2 mb ma RollingByDate out st := by
  unfold Init
  simp [RollingBySize, RollingByDate]

/-- C10: Init with a rollingBy value that is neither RollingBySize nor
RollingByDate is a silent no-op: no rotation setup, no error, state returned
unchanged. -/
theorem c10_unknown_mode_noop (libErr : RotateConfig → Option GoError)
    (f lv : GoStr) (ms mb ma rollingBy : Int) (out : List Bool) (st : GlobalState)
    (h0 : rollingBy ≠ RollingBySize) (h1 : rollingBy ≠ RollingByDate) :
    Init libErr f lv ms mb ma rollingBy out st = .ok st := by
  unfold Init
  simp [h0, h1]

/-- Witness for C10 at the concrete mode value 2. -/
theorem c10_witness :
    Init (fun _ => none) (gostr "app.log") (gostr "info") 1 2 3 2 [] initialState =
      .ok initialState :=
  c10_unknown_mode_noop (fun _ => none) (gostr "app.log") (gostr "info") 1 2 3 2 []
    initialState (by decide) (by decide)

/-- Converting a 64-bit Go int to uint and back is the identity. -/
theorem uintToInt_intToUint (i : Int) (h1 : -(2 ^ 63) ≤ i) (h2 : i < 2 ^ 63) :
    uintToInt (intToUint i) = i := by
  unfold uintToInt intToUint
  split_ifs with h <;> omega

/-- C1: for every maxBackups and maxAgeDays given to date-based rotation
setup, exactly one retention policy is configured: when maxBackups exceeds
maxAgeDays retention is by elapsed age (maxAgeDays days), otherwise by
rotation count (maxBackups files, via the uint conversion, which is the
identity for non-negative counts). -/
theorem c1_retention_selection (p : GoStr) (mb ma : Int)
    (h1 : -(2 ^ 63) ≤ mb) (h2 : mb < 2 ^ 63) :
    ((rotateLogsConfig p (intToUint mb) ma).retention.byAge = true ↔ mb > ma) ∧
    ((rotateLogsConfig p (intToUint mb) ma).retention.byCount = true ↔ ¬mb > ma) ∧
    (mb > ma →
      (rotateLogsConfig p (intToUint mb) ma).retention = .WithMaxAge ma) ∧
    (¬mb > ma →
      (rotateLogsConfig p (intToUint mb) ma).retention =
        .WithRotationCount (intToUint mb)) ∧
    (0 ≤ mb → (intToUint mb : Int) = mb) := by
  have hrt := uintToInt_intToUint mb h1 h2
  unfold rotateLogsConfig
  dsimp only
  rw [hrt]
  constructor
  · by_cases h : mb > ma <;> simp [h, RetentionOption.byAge]
  constructor
  · by_cases h : mb > ma <;> simp [h, RetentionOption.byCount]
  constructor
  · intro h
    simp [h]
  constructor
  · intro h
    simp [h]
  · intro h
    unfold intToUint
    omega

/-- Witness for C1 at the two inputs given in the specification:
maxBackups=10, maxAgeDays=3 retains by age (3 days); maxBackups=3,
maxAgeDays=10 retains by count (3 files). -/
theorem c1_witness :
    (rotateLogsConfig (gostr "app.log") (intToUint 10) 3).retention =
      .WithMaxAge 3 ∧
    (rotateLogsConfig (gostr "app.log") (intToUint 3) 10).retention =
      .WithRotationCount (intToUint 3) ∧
    intToUint 3 = 3 := by
  refine ⟨(c1_retention_selection (gostr "app.log") 10 3 (by decide) (by decide)).2.2.1
      (by decide),
    (c1_retention_selection (gostr "app.log") 3 10 (by decide) (by decide)).2.2.2.1
      (by decide), by decide⟩

/-- On library-constructor failure, DateRolling propagates the panic: its
model never returns a normal state there. -/
theorem DateRolling_err (libErr : RotateConfig → Option GoError) (f lv : GoStr)
    (mb ma : Int) (out : List Bool) (st : GlobalState) (e : GoError)
    (h : libErr (rotateLogsConfig f (intToUint mb) ma) = some e) :
    DateRolling libErr f lv mb ma out st = .error e := by
  unfold DateRolling RotateLogs
  simp [h]

/-- C4: when rotation setup fails, Init and DateRolling end in a panic (the
error branch of the model): the call never returns normally, the process
aborts, and no error value is reported to the caller, whose Go signature has
no error result. -/
theorem c4_setup_failure_panics (libErr : RotateConfig → Option GoError)
    (f lv : GoStr) (ms mb ma : Int) (out : List Bool) (st : GlobalState)
    (e : GoError) (h : libErr (rotateLogsConfig f (intToUint mb) ma) = some e) :
    DateRolling libErr f lv mb ma out st = .error e ∧
    Init libErr f lv ms mb ma RollingByDate out st = .error e := by
  have hd := DateRolling_err libErr f lv mb ma out st e h
  refine ⟨hd, ?_⟩
  unfold Init
  simp [RollingBySize, RollingByDate, hd]

/-- Witness for C4: a failing constructor on a concrete path makes both
DateRolling and Init end in the panic branch. -/
theorem c4_witness :
    DateRolling (fun _ => some ⟨gostr "open failed"⟩) (gostr "/nope/app.log")
      (gostr "info") 3 7 [] initialState = .error ⟨gostr "open failed"⟩ ∧
    Init (fun _ => some ⟨gostr "open failed"⟩) (gostr "/nope/app.log")
      (gostr "info") 0 3 7 RollingByDate [] initialState =
      .error ⟨gostr "open failed"⟩ :=
  c4_setup_failure_panics (fun _ => some ⟨gostr "open failed"⟩)
    (gostr "/nope/app.log") (gostr "info") 0 3 7 [] initialState
    ⟨gostr "open failed"⟩ rfl

/-- Shape of `extFromRev`: it returns the empty list, or the reverse of a
prefix of the reversed input followed by the accumulator. -/
theorem extFromRev_spec (rev : List Char) : ∀ acc : List Char,
    extFromRev acc rev = [] ∨
    ∃ k, k < rev.length ∧
      extFromRev acc rev = (rev.take (k + 1)).reverse ++ acc := by
  induction rev with
  | nil => exact fun acc => Or.inl rfl
  | cons c cs ih =>
    intro acc
    by_cases h1 : c = '/'
    · left
      simp [extFromRev, h1]
    · by_cases h2 : c = '.'
      · right
        exact ⟨0, by simp, by simp [extFromRev, h1, h2]⟩
      · rcases ih (c :: acc) with h | ⟨k, hk, he⟩
        · left
          simpa [extFromRev, h1, h2] using h
        · right
          refine ⟨k + 1, by simpa using Nat.succ_lt_succ hk, ?_⟩
          simp only [extFromRev, if_neg h1, if_neg h2, he, List.take_succ_cons,
            List.reverse_cons, List.append_assoc, List.cons_append,
            List.nil_append]

/-- A non-empty `filepath.Ext` result is an actual suffix of the path. -/
theorem filepathExt_is_suffix (p : GoStr) (h : filepathExt p ≠ []) :
    ∃ stem, stem ++ filepathExt p = p := by
  rcases extFromRev_spec p.reverse [] with h0 | ⟨k, _, he⟩
  · exact absurd h0 h
  · refine ⟨(p.reverse.drop (k + 1)).reverse, ?_⟩
    unfold filepathExt
    rw [he, List.append_nil, ← List.reverse_append, List.take_append_drop,
      List.reverse_reverse]

/-- Go `strings.TrimSuffix` removes an appended suffix exactly. -/
theorem trimSuffix_append (stem ext : GoStr) :
    trimSuffix (stem ++ ext) ext = stem := by
  unfold trimSuffix hasSuffix
  rw [if_pos (by simp [List.isSuffixOf_iff_suffix])]
  rw [List.length_append, Nat.add_sub_cancel]
  exact List.take_left' rfl

/-- C3: the rotated-file pattern is the path with the date suffix ".%Y%m%d"
inserted before the extension when the path has one, and appended at the end
otherwise; "app.log" yields "app.%Y%m%d.log" and "app" yields "app.%Y%m%d". -/
theorem c3_date_pattern (p : GoStr) (mbN : Nat) (ma : Int) :
    ((filepathExt p = [] ∧
        (rotateLogsConfig p mbN ma).pattern = p ++ dateRollingSuffix) ∨
      (filepathExt p ≠ [] ∧ ∃ stem, stem ++ filepathExt p = p ∧
        (rotateLogsConfig p mbN ma).pattern =
          stem ++ dateRollingSuffix ++ filepathExt p)) ∧
    (rotateLogsConfig (gostr "app.log") mbN ma).pattern = gostr "app.%Y%m%d.log" ∧
    (rotateLogsConfig (gostr "app") mbN ma).pattern = gostr "app.%Y%m%d" := by
  refine ⟨?_, rfl, rfl⟩
  by_cases h : filepathExt p = []
  · left
    exact ⟨h, by simp [rotateLogsConfig, h]⟩
  · right
    obtain ⟨stem, hs⟩ := filepathExt_is_suffix p h
    refine ⟨h, stem, hs, ?_⟩
    have hl : 0 < (filepathExt p).length := List.length_pos.mpr h
    simp only [rotateLogsConfig, gt_iff_lt, hl, if_pos]
    generalize hg : filepathExt p = e at hs ⊢
    rw [← hs, trimSuffix_append]

/-- A successful DateRolling sets Sugar and leaves the once-guard alone. -/
theorem DateRolling_ok_fields {libErr : RotateConfig → Option GoError}
    {f lv : GoStr} {mb ma : Int} {out : List Bool} {st st' : GlobalState}
    (h : DateRolling libErr f lv mb ma out st = .ok st') :
    st'.Sugar.isSome = true ∧ st'.onceDone = st.onceDone := by
  unfold DateRolling RotateLogs at h
  dsimp only at h
  cases he : libErr (rotateLogsConfig f (intToUint mb) ma) <;>
    rw [he] at h <;> dsimp only at h
  · injection h with h2
    subst h2
    simp
  · exact absurd h (by simp)

/-- The ensure-logger prelude of every entry point preserves the once-guard
invariant. -/
theorem ensure_preserves_inv (env : GoStr) (st : GlobalState)
    (ih : st.onceDone = true → st.Sugar.isSome = true) :
    (if st.Sugar = none then Default env st else st).onceDone = true →
    (if st.Sugar = none then Default env st else st).Sugar.isSome = true := by
  by_cases hn : st.Sugar = none
  · rw [if_pos hn]
    unfold Default
    split_ifs with hd
    · exact ih
    · intro _
      simp
  · rw [if_neg hn]
    exact ih

/-- The ensure-logger prelude keeps an already-set Sugar set. -/
theorem ensure_active (env : GoStr) (st : GlobalState)
    (ha : st.Sugar.isSome = true) :
    (if st.Sugar = none then Default env st else st).Sugar.isSome = true := by
  rw [if_neg (by intro hn; rw [hn] at ha; exact absurd ha (by simp))]
  exact ha

/-- Each API step preserves the invariant that a fired once-guard implies a
set Sugar reference. -/
theorem step_preserves_inv {st st' : GlobalState} (h : Step st st')
    (ih : st.onceDone = true → st.Sugar.isSome = true) :
    st'.onceDone = true → st'.Sugar.isSome = true := by
  cases h with
  | initOp h =>
    unfold Init at h
    split_ifs at h with h0 h1
    · injection h with h2
      subst h2
      intro _
      simp [SizeRolling]
    · exact fun _ => (DateRolling_ok_fields h).1
    · injection h with h2
      subst h2
      exact ih
  | dateOp h => exact fun _ => (DateRolling_ok_fields h).1
  | sizeOp =>
    intro _
    simp [SizeRolling]
  | defaultOp =>
    unfold Default
    split_ifs with hd
    · exact ih
    · intro _
      simp
  | infoOp => exact ensure_preserves_inv _ _ ih
  | infofOp => exact ensure_preserves_inv _ _ ih
  | debugOp => exact ensure_preserves_inv _ _ ih
  | debugfOp => exact ensure_preserves_inv _ _ ih
  | warnOp => exact ensure_preserves_inv _ _ ih
  | warnfOp => exact ensure_preserves_inv _ _ ih
  | errorOp => exact ensure_preserves_inv _ _ ih
  | errorfOp => exact ensure_preserves_inv _ _ ih
  | fatalOp => exact ensure_preserves_inv _ _ ih
  | fatalfOp => exact ensure_preserves_inv _ _ ih

/-- In every reachable state, a fired once-guard implies a set Sugar. -/
theorem reachable_inv {st : GlobalState} (h : Reachable st) :
    st.onceDone = true → st.Sugar.isSome = true := by
  replace h : Relation.ReflTransGen Step initialState st := h
  induction h with
  | refl =>
    intro h0
    exact absurd h0 (by simp [initialState])
  | tail _ hbc ih => exact step_preserves_inv hbc ih

/-- From any reachable state, the ensure-logger prelude leaves Sugar set. -/
theorem ensure_isSome {st : GlobalState} (h : Reachable st) (env : GoStr) :
    (if st.Sugar = none then Default env st else st).Sugar.isSome = true := by
  by_cases hn : st.Sugar = none
  · rw [if_pos hn]
    unfold Default
    split_ifs with hd
    · have hi := reachable_inv h hd
      rw [hn] at hi
      exact absurd hi (by simp)
    · simp
  · rw [if_neg hn]
    exact Option.isSome_iff_ne_none.mpr hn

/-- Each API step keeps an already-set Sugar set. -/
theorem step_active {st st' : GlobalState} (h : Step st st')
    (ha : st.Sugar.isSome = true) : st'.Sugar.isSome = true := by
  cases h with
  | initOp h =>
    unfold Init at h
    split_ifs at h with h0 h1
    · injection h with h2
      subst h2
      simp [SizeRolling]
    · exact (DateRolling_ok_fields h).1
    · injection h with h2
      subst h2
      exact ha
  | dateOp h => exact (DateRolling_ok_fields h).1
  | sizeOp => simp [SizeRolling]
  | defaultOp =>
    unfold Default
    split_ifs with hd
    · exact ha
    · simp
  | infoOp => exact ensure_active _ _ ha
  | infofOp => exact ensure_active _ _ ha
  | debugOp => exact ensure_active _ _ ha
  | debugfOp => exact ensure_active _ _ ha
  | warnOp => exact ensure_active _ _ ha
  | warnfOp => exact ensure_active _ _ ha
  | errorOp => exact ensure_active _ _ ha
  | errorfOp => exact ensure_active _ _ ha
  | fatalOp => exact ensure_active _ _ ha
  | fatalfOp => exact ensure_active _ _ ha

/-- C5: the global logger slot is a process-wide singleton: once some logger
occupies it (ACTIVE), no API step ever empties it again, and every log call on
an occupied slot routes through the logger currently occupying it, leaving the
state unchanged. -/
theorem c5_singleton_slot :
    (∀ st st', Step st st' → st.Sugar.isSome = true → st'.Sugar.isSome = true) ∧
    (∀ env st s, st.Sugar = some s →
      Info env st = (st, some ⟨Level.InfoLevel, s, false, false⟩)) ∧
    (∀ env st s, st.Sugar = some s →
      Infof env st = (st, some ⟨Level.InfoLevel, s, true, false⟩)) ∧
    (∀ env st s, st.Sugar = some s →
      Debug env st = (st, some ⟨Level.DebugLevel, s, false, false⟩)) ∧
    (∀ env st s, st.Sugar = some s →
      Debugf env st = (st, some ⟨Level.DebugLevel, s, true, false⟩)) ∧
    (∀ env st s, st.Sugar = some s →
      Warn env st = (st, some ⟨Level.WarnLevel, s, false, false⟩)) ∧
    (∀ env st s, st.Sugar = some s →
      Warnf env st = (st, some ⟨Level.WarnLevel, s, true, false⟩)) ∧
    (∀ env st s, st.Sugar = some s →
      Error env st = (st, some ⟨Level.ErrorLevel, s, false, false⟩)) ∧
    (∀ env st s, st.Sugar = some s →
      Errorf env st = (st, some ⟨Level.ErrorLevel, s, true, false⟩)) ∧
    (∀ env st s, st.Sugar = some s →
      Fatal env st = (st, some ⟨Level.FatalLevel, s, false, true⟩)) ∧
    (∀ env st s, st.Sugar = some s →
      Fatalf env st = (st, some ⟨Level.FatalLevel, s, true, true⟩)) := by
  refine ⟨fun st st' h ha => step_active h ha, ?_, ?_, ?_, ?_, ?_, ?_, ?_, ?_, ?_, ?_⟩ <;>
    · intro env st s hs
      simp [Info, Infof, Debug, Debugf, Warn, Warnf, Error, Errorf, Fatal, Fatalf, hs]

/-- Witness for C5: from the activated default state, a further Default step
keeps the slot occupied and an Info call routes through the occupant. -/
theorem c5_witness :
    (Default (gostr "") (Default (gostr "") initialState)).Sugar.isSome = true ∧
    Info (gostr "") (Default (gostr "") initialState) =
      (Default (gostr "") initialState,
        some ⟨Level.InfoLevel, ⟨defaultLogger (gostr "")⟩, false, false⟩) := by
  constructor
  · exact c5_singleton_slot.1 (Default (gostr "") initialState)
      (Default (gostr "") (Default (gostr "") initialState)) Step.defaultOp
      (by decide)
  · exact c5_singleton_slot.2.1 (gostr "") (Default (gostr "") initialState)
      ⟨defaultLogger (gostr "")⟩ (by decide)

/-- C8: every logging entry point called in any reachable state (in particular
before any explicit Init) does not fail: it ensures a logger exists and emits
a record at its own level through the logger then occupying the global slot,
never dereferencing a nil logger. -/
theorem c8_entry_points_never_nil (st : GlobalState) (h : Reachable st)
    (env : GoStr) :
    (((Info env st).2).isSome = true ∧
      (Info env st).2.map Emission.level = some Level.InfoLevel ∧
      (Info env st).2.map Emission.through = (Info env st).1.Sugar ∧
      (Info env st).2.map Emission.formatted = some false) ∧
    (((Infof env st).2).isSome = true ∧
      (Infof env st).2.map Emission.level = some Level.InfoLevel ∧
      (Infof env st).2.map Emission.through = (Infof env st).1.Sugar ∧
      (Infof env st).2.map Emission.formatted = some true) ∧
    (((Debug env st).2).isSome = true ∧
      (Debug env st).2.map Emission.level = some Level.DebugLevel ∧
      (Debug env st).2.map Emission.through = (Debug env st).1.Sugar ∧
      (Debug env st).2.map Emission.formatted = some false) ∧
    (((Debugf env st).2).isSome = true ∧
      (Debugf env st).2.map Emission.level = some Level.DebugLevel ∧
      (Debugf env st).2.map Emission.through = (Debugf env st).1.Sugar ∧
      (Debugf env st).2.map Emission.formatted = some true) ∧
    (((Warn env st).2).isSome = true ∧
      (Warn env st).2.map Emission.level = some Level.WarnLevel ∧
      (Warn env st).2.map Emission.through = (Warn env st).1.Sugar ∧
      (Warn env st).2.map Emission.formatted = some false) ∧
    (((Warnf env st).2).isSome = true ∧
      (Warnf env st).2.map Emission.level = some Level.WarnLevel ∧
      (Warnf env st).2.map Emission.through = (Warnf env st).1.Sugar ∧
      (Warnf env st).2.map Emission.formatted = some true) ∧
    (((Error env st).2).isSome = true ∧
      (Error env st).2.map Emission.level = some Level.ErrorLevel ∧
      (Error env st).2.map Emission.through = (Error env st).1.Sugar ∧
      (Error env st).2.map Emission.formatted = some false) ∧
    (((Errorf env st).2).isSome = true ∧
      (Errorf env st).2.map Emission.level = some Level.ErrorLevel ∧
      (Errorf env st).2.map Emission.through = (Errorf env st).1.Sugar ∧
      (Errorf env st).2.map Emission.formatted = some true) ∧
    (((Fatal env st).2).isSome = true ∧
      (Fatal env st).2.map Emission.level = some Level.FatalLevel ∧
      (Fatal env st).2.map Emission.through = (Fatal env st).1.Sugar ∧
      (Fatal env st).2.map Emission.exits = some true) ∧
    (((Fatalf env st).2).isSome = true ∧
      (Fatalf env st).2.map Emission.level = some Level.FatalLevel ∧
      (Fatalf env st).2.map Emission.through = (Fatalf env st).1.Sugar ∧
      (Fatalf env st).2.map Emission.exits = some true) := by
  have hs := ensure_isSome h env
  obtain ⟨s, hs'⟩ := Option.isSome_iff_exists.mp hs
  simp [Info, Infof, Debug, Debugf, Warn, Warnf, Error, Errorf, Fatal, Fatalf, hs']

/-- Witness for C8: the very first call, before any Init, already emits. -/
theorem c8_witness :
    ((Info (gostr "") initialState).2).isSome = true ∧
    ((Fatalf (gostr "") initialState).2).isSome = true := by
  refine ⟨(c8_entry_points_never_nil initialState Relation.ReflTransGen.refl
      (gostr "")).1.1, ?_⟩
  exact (c8_entry_points_never_nil initialState Relation.ReflTransGen.refl
    (gostr "")).2.2.2.2.2.2.2.2.2.1

end GoLog
